import Mathlib

/-!
Shallow embedding of `src/main.go` of the `google-drive-upload-git-action`
repository: a GitHub action that uploads files matched by a glob pattern to
Google Drive, optionally mirroring the local directory structure as remote
folders and optionally overwriting a same-named remote file.

The Drive service is modelled as an explicit list of remote objects; every
service call of the Go program becomes a pure function on that state.  Path
manipulation (`filepath.Dir`, `filepath.Base`, `strings.Split`) is modelled
on `List Char` following the Go standard library's lexical algorithms.
-/

/-- A remote Drive object as returned by `Files.List` with
`Fields("files(name,id,mimeType,parents)")`. -/
structure RemoteFile where
  id : String
  name : String
  mimeType : String
  parents : List String
deriving Repr, DecidableEq

/-- The modelled state of the Drive service: the set of remote objects,
plus a counter used to mint fresh ids for created objects. -/
structure DriveState where
  files : List RemoteFile
  nextId : Nat
deriving Repr, DecidableEq

/-- Mime type used by the Go code for Drive folders. -/
def folderMimeType : String := "application/vnd.google-apps.folder"

/-- Fresh id minted for an object created in the modelled Drive state. -/
def freshId (st : DriveState) : String := "created-" ++ toString st.nextId

/-! ### Go standard library path helpers, modelled on `List Char` -/

/-- `strings.Split` on a single-character separator (Go never returns an
empty list: splitting the empty string yields one empty element). -/
def splitSep (sep : Char) : List Char → List (List Char)
  | [] => [[]]
  | c :: cs =>
    if c = sep then
      [] :: splitSep sep cs
    else
      match splitSep sep cs with
      | [] => [[c]]
      | e :: es => (c :: e) :: es

/-- One step of Go `path/filepath.Clean`'s element processing: push a path
element onto the (reversed) output stack. -/
def cleanStep (rooted : Bool) (stack : List (List Char)) (e : List Char) :
    List (List Char) :=
  if e = [] ∨ e = ['.'] then stack
  else if e = ['.', '.'] then
    match stack with
    | top :: rest => if top = ['.', '.'] then e :: stack else rest
    | [] => if rooted then [] else [e]
  else e :: stack

/-- Join path elements with `'/'`. -/
def joinSlash : List (List Char) → List Char
  | [] => []
  | [e] => e
  | e :: es => e ++ '/' :: joinSlash es

/-- Go `path/filepath.Clean` (Unix), as a lexical stack algorithm:
drop empty and `.` elements, let `..` pop a previous element. -/
def cleanPath (cs : List Char) : List Char :=
  let rooted := cs.head? = some '/'
  let elems := splitSep '/' cs
  let stack := (elems.foldl (cleanStep rooted) []).reverse
  let body := joinSlash stack
  let out := (if rooted then ['/'] else []) ++ body
  if out = [] then ['.'] else out

/-- Prefix of a path up to and including its last `'/'` (empty when the
path has no separator), as in Go `filepath.Dir`'s scan loop. -/
def dropAfterLastSep (cs : List Char) : List Char :=
  ((cs.reverse).dropWhile (fun c => c ≠ '/')).reverse

/-- Go `path/filepath.Dir` on Unix: everything up to the final separator,
cleaned; `"."` when there is no separator. -/
def dirChars (cs : List Char) : List Char :=
  cleanPath (dropAfterLastSep cs)

/-- Go `path/filepath.Base` on Unix: strip trailing separators, then keep
the suffix after the last separator. -/
def baseChars (cs : List Char) : List Char :=
  if cs = [] then ['.']
  else
    let stripped := ((cs.reverse).dropWhile (fun c => c = '/')).reverse
    let last := ((stripped.reverse).takeWhile (fun c => c ≠ '/')).reverse
    if stripped = [] then ['/']
    else last

/-- `filepath.Dir` lifted to `String`. -/
def filepathDir (s : String) : String := String.mk (dirChars s.data)

/-- `filepath.Base` lifted to `String`. -/
def filepathBase (s : String) : String := String.mk (baseChars s.data)

/-- `strings.Split(s, "/")` lifted to `String` (the Go code splits on
`os.PathSeparator`, which is `'/'` on the Linux runners it targets). -/
def stringsSplitSlash (s : String) : List String :=
  (splitSep '/' s.data).map String.mk

/-- Go `strconv.ParseBool`: the exact literal set it accepts; `none`
models the error return. -/
def parseBool (s : String) : Option Bool :=
  if s = "1" ∨ s = "t" ∨ s = "T" ∨ s = "true" ∨ s = "TRUE" ∨ s = "True" then
    some true
  else if s = "0" ∨ s = "f" ∨ s = "F" ∨ s = "false" ∨ s = "FALSE" ∨ s = "False" then
    some false
  else none

/-- The flag-reading pattern of `main` for `overwrite`,
`useCompleteSourceFilenameAsName` and `mirrorDirectoryStructure`: empty
input means `false`; otherwise `strconv.ParseBool`'s value is used with
the error discarded (Go returns `false` alongside the error). -/
def readBoolFlag (raw : String) : Bool :=
  if raw = "" then false
  else (parseBool raw).getD false

/-! ### Drive service operations of `main.go` -/

/-- The `Files.List` query of `createDriveDirectory`
(`name='<name>' and mimeType='application/vnd.google-apps.folder'`):
all remote folders with the given exact name, service-wide. -/
def listFoldersNamed (st : DriveState) (name : String) : List RemoteFile :=
  st.files.filter (fun f => f.name = name ∧ f.mimeType = folderMimeType)

/-- The scan loop of `createDriveDirectory` over the listing result:
counts parent hits and records the id of the hit's owner
(`foundFolders`, `nextFolderId`; the Go zero value of `nextFolderId`
is the empty string). -/
def scanFolders (rfiles : List RemoteFile) (folderId : String) : Nat × String :=
  rfiles.foldl
    (fun acc i =>
      i.parents.foldl
        (fun acc2 p => if p = folderId then (acc2.1 + 1, i.id) else acc2) acc)
    (0, "")

/-- `createDriveDirectory` of `main.go`: look for an existing folder with
the given name whose parents contain `folderId`; if none, create one
under `folderId`.  Returns the updated Drive state and the adopted
folder id. -/
def createDriveDirectory (st : DriveState) (folderId name : String) :
    DriveState × String :=
  let r := listFoldersNamed st name
  let scanned := scanFolders r folderId
  if scanned.1 = 0 then
    let newId := freshId st
    let f : RemoteFile := ⟨newId, name, folderMimeType, [folderId]⟩
    (⟨st.files ++ [f], st.nextId + 1⟩, newId)
  else
    (st, scanned.2)

/-- The directory-mirroring segments of `main`:
`strings.Split(filepath.Dir(file), string(os.PathSeparator))`. -/
def mirrorSegments (file : String) : List String :=
  stringsSplitSlash (filepathDir file)

/-- The mirroring loop of `main`: fold `createDriveDirectory` over the
path segments, threading the Drive state and the working folder id. -/
def mirrorFold (st : DriveState) (folderId : String) (segs : List String) :
    DriveState × String :=
  segs.foldl (fun acc dir => createDriveDirectory acc.1 acc.2 dir) (st, folderId)

/-- The `Files.List` query of `uploadFile` (`name='<name>'`): all remote
objects with the given exact name, service-wide. -/
def listFilesNamed (st : DriveState) (name : String) : List RemoteFile :=
  st.files.filter (fun f => f.name = name)

/-- The `currentFile` selection loop of `uploadFile`, translated
statement-for-statement: `currentFile` is overwritten by every
name-matching object, and the loop breaks early at the first object that
moreover has `folderId` among its parents. -/
def resolveLoop (folderId name : String) (currentFile : Option RemoteFile) :
    List RemoteFile → Option RemoteFile
  | [] => currentFile
  | i :: rest =>
    if name = i.name then
      if i.parents.any (fun p => p = folderId) then some i
      else resolveLoop folderId name (some i) rest
    else resolveLoop folderId name currentFile rest

/-- The overwrite target chosen by `uploadFile` when the overwrite flag is
set: run the selection loop over the name-filtered listing. -/
def resolveOverwriteTarget (st : DriveState) (folderId name : String) :
    Option RemoteFile :=
  resolveLoop folderId name none (listFilesNamed st name)

/-! ### Local filesystem and upload calls -/

/-- What `os.Lstat` can report about a matched path in the model. -/
inductive FsStat where
  | missing
  | dir
  | file
deriving Repr, DecidableEq

/-- The local filesystem, as the stat of each path. -/
def Fs : Type := String → FsStat

/-- A mutating Drive API call issued by `uploadToDrive`. -/
inductive DriveCall where
  /-- `Files.Create` with the given parents, name and mime type. -/
  | create (parents : List String) (name mime : String)
  /-- `Files.Update` on `fileId`, adding `addParent`, with new name and
  mime type. -/
  | update (fileId addParent name mime : String)
deriving Repr, DecidableEq

/-- `uploadToDrive` of `main.go`.  `Except.error` models
`githubactions.Fatalf` (which exits the process); `Except.ok none` is the
directory skip; `Except.ok (some c)` records the single create or update
call issued. -/
def uploadToDrive (fs : Fs) (filename folderId : String)
    (driveFile : Option RemoteFile) (name mimeType : String) :
    Except String (Option DriveCall) :=
  match fs filename with
  | .missing => .error ("lstat of file with filename: " ++ filename ++ " failed")
  | .dir => .ok none
  | .file =>
    match driveFile with
    | some df => .ok (some (.update df.id folderId name mimeType))
    | none => .ok (some (.create [folderId] name mimeType))

/-- `uploadFile` of `main.go`: with the overwrite flag set, resolve an
existing target and update it when found; otherwise create. -/
def uploadFile (st : DriveState) (fs : Fs) (filename folderId name mimeType :
    String) (overwriteFlag : Bool) : Except String (Option DriveCall) :=
  if overwriteFlag then
    match resolveOverwriteTarget st folderId name with
    | none => uploadToDrive fs filename folderId none name mimeType
    | some currentFile =>
      uploadToDrive fs filename folderId (some currentFile) name mimeType
  else
    uploadToDrive fs filename folderId none name mimeType

/-- Effect of an issued call on the modelled Drive state: a create adds a
fresh object, an update renames the object and adds the new parent. -/
def applyCall (st : DriveState) : Option DriveCall → DriveState
  | none => st
  | some (.create parents name mime) =>
    ⟨st.files ++ [⟨freshId st, name, mime, parents⟩], st.nextId + 1⟩
  | some (.update fileId addParent name mime) =>
    ⟨st.files.map (fun f =>
      if f.id = fileId then ⟨f.id, name, mime, addParent :: f.parents⟩ else f),
     st.nextId⟩

/-! ### The per-file body of `main`'s loop -/

/-- The process-wide configuration read by `main` from the action inputs,
after flag parsing and globbing. -/
structure Config where
  /-- the `name` input -/
  name : String
  /-- the `folderId` input (the configured root folder) -/
  folderId : String
  /-- the `mimeType` input -/
  mimeType : String
  /-- the parsed `overwrite` flag -/
  overwriteFlag : Bool
  /-- the parsed `useCompleteSourceFilenameAsName` flag -/
  useCompleteFlag : Bool
  /-- the parsed `mirrorDirectoryStructure` flag -/
  mirrorFlag : Bool
  /-- the `namePrefix` input -/
  namePrefix : String
  /-- the glob expansion of the `filename` input -/
  files : List String
deriving Repr

/-- `useSourceFilename := len(files) > 1` of `main`. -/
def useSourceFilename (cfg : Config) : Bool := cfg.files.length > 1

/-- The target-name selection of `main` (lines 179–185): full source path,
base name, or the configured name. -/
def resolveTargetName (useCompleteFlag useSource : Bool) (name file : String) :
    String :=
  if useCompleteFlag then file
  else if useSource ∨ name = "" then filepathBase file
  else name

/-- The empty-name check and prefixing of `main` (lines 186–190): `none`
models the fatal abort on an empty resolved name. -/
def applyPrefix (filenamePrefix targetName : String) : Option String :=
  if targetName = "" then none
  else if filenamePrefix ≠ "" then some (filenamePrefix ++ targetName)
  else some targetName

/-- The mirroring phase of one loop iteration of `main`: starting from
the configured root folder id (the per-iteration reset of the `folderId`
variable), run the mirroring fold when the flag is set.  Returns the
Drive state and the value of the `folderId` variable afterwards. -/
def mirrorTarget (cfg : Config) (st : DriveState) (file : String) :
    DriveState × String :=
  if cfg.mirrorFlag then mirrorFold st cfg.folderId (mirrorSegments file)
  else (st, cfg.folderId)

/-- One iteration of `main`'s loop over the matched files: reset the
working folder id to the configured root, optionally mirror the file's
directory structure, resolve the target name, and upload.  Returns the
Drive state after the iteration, the final value of the working folder id
variable, and the call issued for this file (if any). -/
def processOneFile (cfg : Config) (fs : Fs) (st : DriveState) (file : String) :
    Except String (DriveState × String × Option DriveCall) :=
  let mirrored := mirrorTarget cfg st file
  let targetName :=
    resolveTargetName cfg.useCompleteFlag (useSourceFilename cfg) cfg.name file
  match applyPrefix cfg.namePrefix targetName with
  | none => .error "Could not discover target file name"
  | some finalName =>
    match uploadFile mirrored.1 fs file mirrored.2 finalName cfg.mimeType
        cfg.overwriteFlag with
    | .error e => .error e
    | .ok call => .ok (applyCall mirrored.1 call, mirrored.2, call)

/-- `main`'s loop over the matched files, threading the Drive state and
the mutable `folderId` variable (which each iteration overwrites with the
configured root before using it).  Returns the calls issued, in order;
`Except.error` models a fatal abort, which stops the whole run. -/
def processFiles (cfg : Config) (fs : Fs) :
    DriveState → String → List String → Except String (List DriveCall)
  | _st, _folderIdVar, [] => .ok []
  | st, _folderIdVar, file :: rest =>
    match processOneFile cfg fs st file with
    | .error e => .error e
    | .ok (st', folderIdVar', call) =>
      match processFiles cfg fs st' folderIdVar' rest with
      | .error e => .error e
      | .ok calls => .ok (call.toList ++ calls)

/-! ### Helper lemmas -/

/-- `getLast?` of a cons: the last of the tail, defaulting to the head. -/
lemma getLast?_cons_getD (a : α) (l : List α) :
    (a :: l).getLast? = some (l.getLast?.getD a) := by
  cases l with
  | nil => rfl
  | cons b l =>
    rw [List.getLast?_cons_cons]
    cases h : (b :: l).getLast? with
    | none => simp [List.getLast?_eq_none_iff] at h
    | some x => simp

/-- The inner parent loop of `createDriveDirectory`'s scan: it adds the
number of parent hits to the counter and records the owner's id exactly
when there is at least one hit. -/
lemma scan_inner_eq (fid id : String) (ps : List String) (acc : Nat × String) :
    ps.foldl (fun acc2 p => if p = fid then (acc2.1 + 1, id) else acc2) acc =
      (acc.1 + ps.countP (fun p => p = fid),
       if fid ∈ ps then id else acc.2) := by
  induction ps generalizing acc with
  | nil => simp
  | cons p ps ih =>
    rw [List.foldl_cons]
    by_cases hp : p = fid
    · subst hp
      simp [ih, List.countP_cons, List.mem_cons, Nat.add_comm, Nat.add_assoc,
        Nat.add_left_comm]
    · have hp' : ¬fid = p := fun h => hp h.symm
      simp [ih, hp, hp', List.countP_cons, List.mem_cons]

/-- The outer scan loop of `createDriveDirectory`: the counter totals the
parent hits over the whole listing, and the recorded id is the id of the
LAST listed folder whose parents contain `folderId`. -/
lemma scan_fold_eq (fid : String) (l : List RemoteFile) (acc : Nat × String) :
    l.foldl
        (fun acc i =>
          i.parents.foldl
            (fun acc2 p => if p = fid then (acc2.1 + 1, i.id) else acc2) acc)
        acc =
      (acc.1 + (l.map (fun i => i.parents.countP (fun p => p = fid))).sum,
       match (l.filter (fun i => decide (fid ∈ i.parents))).getLast? with
       | some x => x.id
       | none => acc.2) := by
  induction l generalizing acc with
  | nil => simp
  | cons i l ih =>
    rw [List.foldl_cons, scan_inner_eq, ih]
    by_cases hi : fid ∈ i.parents
    · have hd : (decide (fid ∈ i.parents)) = true := by simpa using hi
      rw [List.filter_cons, hd, if_pos rfl, getLast?_cons_getD]
      cases hlast : (l.filter (fun i => decide (fid ∈ i.parents))).getLast? with
      | none => simp [hlast, hi, Nat.add_comm, Nat.add_assoc, Nat.add_left_comm]
      | some x => simp [hlast, Nat.add_comm, Nat.add_assoc, Nat.add_left_comm]
    · have hcnt : i.parents.countP (fun p => p = fid) = 0 := by
        rw [List.countP_eq_zero]
        intro p hp
        simp only [decide_eq_true_eq]
        exact fun hpe => hi (hpe ▸ hp)
      have hd : (decide (fid ∈ i.parents)) = false := by simpa using hi
      rw [List.filter_cons, hd]
      simp [hcnt, hi, Nat.add_comm, Nat.add_assoc, Nat.add_left_comm]

/-- When the matched path is a directory, `uploadToDrive` returns without
issuing any call, in both the create and the update configuration. -/
lemma uploadFile_dir (st : DriveState) (fs : Fs)
    (filename folderId name mime : String) (ow : Bool)
    (h : fs filename = .dir) :
    uploadFile st fs filename folderId name mime ow = .ok none := by
  cases ow with
  | false => simp [uploadFile, uploadToDrive, h]
  | true =>
    cases hr : resolveOverwriteTarget st folderId name <;>
      simp [uploadFile, uploadToDrive, h, hr]

/-! ### Claim theorems -/

/-- Claim C1 (code bug): with overwrite enabled, a Drive state whose only
object named `a.txt` lives in folder `other` — not in the target folder
`root` — is nevertheless selected as the overwrite target, and the upload
issues an `Update` of that foreign object rather than a `Create`.  The
spec (and the code's own `found` flag and "file found in expected folder"
message) require a create here: the code assigns `currentFile` on a bare
name match before checking the parent set and never resets it. -/
theorem overwrite_selects_foreign_folder_object :
    resolveOverwriteTarget ⟨[⟨"f1", "a.txt", "text/plain", ["other"]⟩], 0⟩
        "root" "a.txt" = some ⟨"f1", "a.txt", "text/plain", ["other"]⟩ ∧
    uploadFile ⟨[⟨"f1", "a.txt", "text/plain", ["other"]⟩], 0⟩
        (fun _ => FsStat.file) "local/a.txt" "root" "a.txt" "text/plain" true =
      .ok (some (.update "f1" "root" "a.txt" "text/plain")) := by
  constructor
  · decide
  · rfl

/-- Claim C2 (counterexample to "first match wins"): with two remote
folders named `a` under parent `R`, listed as `id1` then `id2`, the
directory step adopts `id2` — the LAST match — although the first
name-and-parent match in listing order is `id1`. -/
theorem createDriveDirectory_not_first_match :
    ((listFoldersNamed
        ⟨[⟨"id1", "a", folderMimeType, ["R"]⟩,
          ⟨"id2", "a", folderMimeType, ["R"]⟩], 0⟩ "a").find?
      (fun f => decide ("R" ∈ f.parents))) =
        some ⟨"id1", "a", folderMimeType, ["R"]⟩ ∧
    (createDriveDirectory
        ⟨[⟨"id1", "a", folderMimeType, ["R"]⟩,
          ⟨"id2", "a", folderMimeType, ["R"]⟩], 0⟩ "R" "a").2 = "id2" ∧
    ("id2" : String) ≠ "id1" := by
  refine ⟨by decide, by decide, by decide⟩

/-- Claim C2 (amended): a directory-mirror step on segment `name` and
current folder id `folderId` adopts the id of the LAST folder in the
service listing whose name is `name`, whose mime type is the folder mime
type, and whose parent set contains `folderId`; when no such folder
exists it creates a new remote folder named `name` under `folderId` and
adopts the created folder's id. -/
theorem createDriveDirectory_last_match_or_create
    (st : DriveState) (folderId name : String) :
    createDriveDirectory st folderId name =
      match ((listFoldersNamed st name).filter
          (fun f => decide (folderId ∈ f.parents))).getLast? with
      | some x => (st, x.id)
      | none =>
        (⟨st.files ++ [⟨freshId st, name, folderMimeType, [folderId]⟩],
          st.nextId + 1⟩, freshId st) := by
  dsimp only [createDriveDirectory, scanFolders]
  rw [scan_fold_eq]
  have hiff :
      ((listFoldersNamed st name).map
          (fun i => i.parents.countP (fun p => p = folderId))).sum = 0 ↔
        (listFoldersNamed st name).filter
          (fun f => decide (folderId ∈ f.parents)) = [] := by
    rw [List.sum_eq_zero_iff, List.filter_eq_nil_iff]
    constructor
    · intro h f hf hd
      have h0 := h _ (List.mem_map_of_mem _ hf)
      rw [List.countP_eq_zero] at h0
      have hm : folderId ∈ f.parents := by simpa using hd
      exact absurd (by simp) (h0 folderId hm)
    · intro h x hx
      obtain ⟨f, hf, rfl⟩ := List.mem_map.mp hx
      rw [List.countP_eq_zero]
      intro p hp
      simp only [decide_eq_true_eq]
      intro hpe
      exact h f hf (by simpa using hpe ▸ hp)
  cases hlast : ((listFoldersNamed st name).filter
      (fun f => decide (folderId ∈ f.parents))).getLast? with
  | none =>
    have hnil := List.getLast?_eq_none_iff.mp hlast
    have hz : ((listFoldersNamed st name).map
        (fun i => i.parents.countP (fun p => p = folderId))).sum = 0 :=
      hiff.mpr hnil
    simp [hlast, hz]
  | some x =>
    have hne : (listFoldersNamed st name).filter
        (fun f => decide (folderId ∈ f.parents)) ≠ [] := by
      intro hnil
      rw [hnil] at hlast
      simp at hlast
    have hz : ((listFoldersNamed st name).map
        (fun i => i.parents.countP (fun p => p = folderId))).sum ≠ 0 :=
      fun h => hne (hiff.mp h)
    simp [hlast, hz]

/-- Claim C3: for local path `a/b/c/file.txt` the Directory Mirror splits
off exactly the segments `a`, `b`, `c` in order, and the mirroring fold
resolves `a` against the root `R`, then `b` against `a`'s resolved id,
then `c` against `b`'s resolved id; the file's final target folder id is
exactly the id resolved for `c`. -/
theorem mirror_abc_segments_in_order (st : DriveState) (R : String) :
    mirrorSegments "a/b/c/file.txt" = ["a", "b", "c"] ∧
    mirrorFold st R (mirrorSegments "a/b/c/file.txt") =
      (let r1 := createDriveDirectory st R "a"
       let r2 := createDriveDirectory r1.1 r1.2 "b"
       createDriveDirectory r2.1 r2.2 "c") := by
  constructor
  · decide
  · have h : mirrorSegments "a/b/c/file.txt" = ["a", "b", "c"] := by decide
    rw [h]
    rfl

/-- Claim C4: the working folder id is a loop-carried variable that every
iteration of `main`'s file loop overwrites with the configured root
folder id before use, so the run's outcome does not depend on the folder
id value left behind by the previous file's mirroring. -/
theorem folder_id_reset_between_files (cfg : Config) (fs : Fs)
    (st : DriveState) (v w : String) (files : List String) :
    processFiles cfg fs st v files = processFiles cfg fs st w files := by
  cases files with
  | nil => rfl
  | cons f rest => rfl

/-- Claim C5 (counterexample): in a configuration with two matched files
and `useCompleteSourceFilenameAsName` enabled, the resolved target name
of `a/b.txt` is the full path `a/b.txt`, not the base name `b.txt`: the
full-source-name rule takes priority over the multiple-files rule. -/
theorem multi_file_name_not_always_basename :
    useSourceFilename
        ⟨"configured", "R", "", false, true, false, "",
          ["a/b.txt", "c.txt"]⟩ = true ∧
    resolveTargetName true
        (useSourceFilename
          ⟨"configured", "R", "", false, true, false, "",
            ["a/b.txt", "c.txt"]⟩) "configured" "a/b.txt" = "a/b.txt" ∧
    filepathBase "a/b.txt" = "b.txt" ∧
    ("a/b.txt" : String) ≠ "b.txt" := by
  refine ⟨by decide, by decide, by decide, by decide⟩

/-- Claim C5 (amended): in every configuration where the glob matched
more than one file AND `useCompleteSourceFilenameAsName` is disabled,
each file's resolved target name equals that file's base name, regardless
of the configured name. -/
theorem multi_file_name_is_basename (cfg : Config) (file : String)
    (hc : cfg.useCompleteFlag = false) (hm : 1 < cfg.files.length) :
    resolveTargetName cfg.useCompleteFlag (useSourceFilename cfg) cfg.name file
      = filepathBase file := by
  have hs : useSourceFilename cfg = true := by
    simp only [useSourceFilename, decide_eq_true_eq]
    exact hm
  rw [hc, hs]
  simp [resolveTargetName]

/-- Concrete instantiation of `multi_file_name_is_basename`. -/
theorem multi_file_name_is_basename_witness :
    (Config.useCompleteFlag
        ⟨"configured", "R", "", false, false, false, "",
          ["a/b.txt", "c.txt"]⟩ = false) ∧
    (1 < (Config.files
        ⟨"configured", "R", "", false, false, false, "",
          ["a/b.txt", "c.txt"]⟩).length) ∧
    resolveTargetName
        (Config.useCompleteFlag
          ⟨"configured", "R", "", false, false, false, "",
            ["a/b.txt", "c.txt"]⟩)
        (useSourceFilename
          ⟨"configured", "R", "", false, false, false, "",
            ["a/b.txt", "c.txt"]⟩)
        (Config.name
          ⟨"configured", "R", "", false, false, false, "",
            ["a/b.txt", "c.txt"]⟩)
        "a/b.txt" = filepathBase "a/b.txt" :=
  ⟨by decide, by decide,
    multi_file_name_is_basename
      ⟨"configured", "R", "", false, false, false, "", ["a/b.txt", "c.txt"]⟩
      "a/b.txt" rfl (by decide)⟩

/-- Claim C6: with `useCompleteSourceFilenameAsName` enabled and a
non-empty matched path, the final name passed to the upload is exactly
the configured prefix concatenated with the full matched source path
(the prefix being the empty string when unset). -/
theorem complete_source_name_keeps_full_path (cfg : Config) (file : String)
    (hc : cfg.useCompleteFlag = true) (hf : file ≠ "") :
    applyPrefix cfg.namePrefix
        (resolveTargetName cfg.useCompleteFlag (useSourceFilename cfg)
          cfg.name file)
      = some (cfg.namePrefix ++ file) := by
  rw [hc]
  have h1 : resolveTargetName true (useSourceFilename cfg) cfg.name file
      = file := by
    simp [resolveTargetName]
  rw [h1]
  unfold applyPrefix
  rw [if_neg hf]
  by_cases hp : cfg.namePrefix = ""
  · rw [if_neg (by simp [hp])]
    rw [hp]
    cases file
    rfl
  · rw [if_pos hp]

/-- Concrete instantiation of `complete_source_name_keeps_full_path`. -/
theorem complete_source_name_keeps_full_path_witness :
    (Config.useCompleteFlag
        ⟨"n", "R", "", false, true, false, "pfx-", ["a/b.txt"]⟩ = true) ∧
    ("a/b.txt" : String) ≠ "" ∧
    applyPrefix
        (Config.namePrefix
          ⟨"n", "R", "", false, true, false, "pfx-", ["a/b.txt"]⟩)
        (resolveTargetName
          (Config.useCompleteFlag
            ⟨"n", "R", "", false, true, false, "pfx-", ["a/b.txt"]⟩)
          (useSourceFilename
            ⟨"n", "R", "", false, true, false, "pfx-", ["a/b.txt"]⟩)
          (Config.name
            ⟨"n", "R", "", false, true, false, "pfx-", ["a/b.txt"]⟩)
          "a/b.txt")
      = some (Config.namePrefix
          ⟨"n", "R", "", false, true, false, "pfx-", ["a/b.txt"]⟩ ++
          "a/b.txt") :=
  ⟨by decide, by decide,
    complete_source_name_keeps_full_path
      ⟨"n", "R", "", false, true, false, "pfx-", ["a/b.txt"]⟩
      "a/b.txt" rfl (by decide)⟩

/-- Claim C7: a matched path that refers to a directory is skipped: the
iteration issues no create or update call, does not abort the run, and
the batch proceeds to the remaining files from the post-mirroring state
(provided the name resolution itself did not abort first). -/
theorem directory_skipped_batch_continues (cfg : Config) (fs : Fs)
    (st : DriveState) (v file : String) (rest : List String)
    (hdir : fs file = .dir)
    (hname : applyPrefix cfg.namePrefix
        (resolveTargetName cfg.useCompleteFlag (useSourceFilename cfg)
          cfg.name file) ≠ none) :
    processOneFile cfg fs st file =
      .ok ((mirrorTarget cfg st file).1, (mirrorTarget cfg st file).2,
        none) ∧
    processFiles cfg fs st v (file :: rest) =
      processFiles cfg fs (mirrorTarget cfg st file).1
        (mirrorTarget cfg st file).2 rest := by
  obtain ⟨fn, hfn⟩ := Option.ne_none_iff_exists'.mp hname
  have h1 : processOneFile cfg fs st file =
      .ok ((mirrorTarget cfg st file).1, (mirrorTarget cfg st file).2,
        none) := by
    dsimp only [processOneFile]
    rw [hfn]
    dsimp only
    rw [uploadFile_dir _ _ _ _ _ _ _ hdir]
    rfl
  refine ⟨h1, ?_⟩
  simp only [processFiles]
  rw [h1]
  cases hres : processFiles cfg fs (mirrorTarget cfg st file).1
      (mirrorTarget cfg st file).2 rest <;> simp [hres]

/-- Concrete instantiation of `directory_skipped_batch_continues`. -/
theorem directory_skipped_batch_continues_witness :
    ((fun _ : String => FsStat.dir) "d" = FsStat.dir) ∧
    (applyPrefix
        (Config.namePrefix ⟨"", "R", "", false, false, false, "", ["d"]⟩)
        (resolveTargetName
          (Config.useCompleteFlag
            ⟨"", "R", "", false, false, false, "", ["d"]⟩)
          (useSourceFilename ⟨"", "R", "", false, false, false, "", ["d"]⟩)
          (Config.name ⟨"", "R", "", false, false, false, "", ["d"]⟩)
          "d") ≠ none) ∧
    (processOneFile ⟨"", "R", "", false, false, false, "", ["d"]⟩
        (fun _ => FsStat.dir) ⟨[], 0⟩ "d" =
      .ok ((mirrorTarget ⟨"", "R", "", false, false, false, "", ["d"]⟩
              ⟨[], 0⟩ "d").1,
           (mirrorTarget ⟨"", "R", "", false, false, false, "", ["d"]⟩
              ⟨[], 0⟩ "d").2, none) ∧
    processFiles ⟨"", "R", "", false, false, false, "", ["d"]⟩
        (fun _ => FsStat.dir) ⟨[], 0⟩ "R" ("d" :: []) =
      processFiles ⟨"", "R", "", false, false, false, "", ["d"]⟩
        (fun _ => FsStat.dir)
        (mirrorTarget ⟨"", "R", "", false, false, false, "", ["d"]⟩
          ⟨[], 0⟩ "d").1
        (mirrorTarget ⟨"", "R", "", false, false, false, "", ["d"]⟩
          ⟨[], 0⟩ "d").2 []) :=
  ⟨rfl, by decide,
    directory_skipped_batch_continues
      ⟨"", "R", "", false, false, false, "", ["d"]⟩
      (fun _ => FsStat.dir) ⟨[], 0⟩ "R" "d" [] rfl (by decide)⟩

/-- Claim C8: when the resolved name (after the full-source-name,
base-name, configured-name and prefix rules) is empty, the whole run
aborts with the fatal message before any upload for that file; none of
the remaining files are processed. -/
theorem empty_resolved_name_aborts_run (cfg : Config) (fs : Fs)
    (st : DriveState) (v file : String) (rest : List String)
    (hname : applyPrefix cfg.namePrefix
        (resolveTargetName cfg.useCompleteFlag (useSourceFilename cfg)
          cfg.name file) = none) :
    processFiles cfg fs st v (file :: rest) =
      .error "Could not discover target file name" := by
  have h1 : processOneFile cfg fs st file =
      .error "Could not discover target file name" := by
    dsimp only [processOneFile]
    rw [hname]
  simp only [processFiles]
  rw [h1]

/-- Concrete instantiation of `empty_resolved_name_aborts_run`. -/
theorem empty_resolved_name_aborts_run_witness :
    (applyPrefix
        (Config.namePrefix ⟨"", "R", "", false, true, false, "", [""]⟩)
        (resolveTargetName
          (Config.useCompleteFlag ⟨"", "R", "", false, true, false, "", [""]⟩)
          (useSourceFilename ⟨"", "R", "", false, true, false, "", [""]⟩)
          (Config.name ⟨"", "R", "", false, true, false, "", [""]⟩)
          "") = none) ∧
    processFiles ⟨"", "R", "", false, true, false, "", [""]⟩
        (fun _ => FsStat.file) ⟨[], 0⟩ "R" ("" :: ["x.txt"]) =
      .error "Could not discover target file name" :=
  ⟨by decide,
    empty_resolved_name_aborts_run
      ⟨"", "R", "", false, true, false, "", [""]⟩
      (fun _ => FsStat.file) ⟨[], 0⟩ "R" "" ["x.txt"] (by decide)⟩

/-- Claim C9: a non-empty boolean input that is not one of
`strconv.ParseBool`'s accepted literals is silently treated as `false`:
the parse error is discarded and Go's zero-value result is kept
(e.g. `overwrite='yes'` disables overwriting). -/
theorem invalid_bool_input_parsed_as_false (s : String)
    (hne : s ≠ "") (hinvalid : parseBool s = none) :
    readBoolFlag s = false := by
  unfold readBoolFlag
  rw [if_neg hne, hinvalid]
  rfl

/-- Concrete instantiation of `invalid_bool_input_parsed_as_false` at
the input `yes`. -/
theorem invalid_bool_input_parsed_as_false_witness :
    ("yes" : String) ≠ "" ∧ parseBool "yes" = none ∧
      readBoolFlag "yes" = false :=
  ⟨by decide, by decide,
    invalid_bool_input_parsed_as_false "yes" (by decide) (by decide)⟩

/-- Claim C10: for a matched path with no directory separator,
`filepath.Dir` yields `.`, so the enabled mirroring phase runs exactly
one step with segment `.`: it looks up or creates a remote folder named
`.` under the configured root and adopts that folder's id as the upload
target folder. -/
theorem no_separator_mirrors_dot_folder (st : DriveState) (R file' : String)
    (h : ('/' : Char) ∉ file'.data) :
    mirrorSegments file' = ["."] ∧
    mirrorFold st R (mirrorSegments file') = createDriveDirectory st R "." := by
  have h1 : dropAfterLastSep file'.data = [] := by
    unfold dropAfterLastSep
    have h2 : file'.data.reverse.dropWhile (fun c => c ≠ '/') = [] := by
      rw [List.dropWhile_eq_nil_iff]
      intro x hx
      have hm : x ∈ file'.data := List.mem_reverse.mp hx
      have hne : ¬x = '/' := fun he => h (he ▸ hm)
      simp [hne]
    rw [h2]
    rfl
  have h2 : mirrorSegments file' = ["."] := by
    unfold mirrorSegments filepathDir dirChars
    rw [h1]
    decide
  refine ⟨h2, ?_⟩
  rw [h2]
  rfl

/-- Concrete instantiation of `no_separator_mirrors_dot_folder` at the
path `file.txt`. -/
theorem no_separator_mirrors_dot_folder_witness :
    (('/' : Char) ∉ ("file.txt" : String).data) ∧
    (mirrorSegments "file.txt" = ["."] ∧
      mirrorFold ⟨[], 0⟩ "R" (mirrorSegments "file.txt") =
        createDriveDirectory ⟨[], 0⟩ "R" ".") :=
  ⟨by decide,
    no_separator_mirrors_dot_folder ⟨[], 0⟩ "R" "file.txt" (by decide)⟩

